import Mathlib

/-!
Verification of the youtube-crawler-web transcript pipeline.

The development shallowly embeds the route handlers of the repository:

* `YTWeb.Route` embeds `src/app/api/youtube/route.ts` (the variant wired to the
  RapidAPI media-downloader resolver): `tryGetSubtitles`, `getAudioUrl`,
  `transcribeWithWhisper` and the `POST` orchestrator.
* `YTWeb.Cobalt` embeds the `transcribeWithWhisper` of the cobalt-resolver
  variant of the same route (the part that inspects the resolver status).
* `YTWeb.History` embeds `src/app/api/history/route.ts`.

External collaborators (fetch, the caption library, the speech engine, the
history store) are modelled as oracles supplied in an environment record;
each embedded function additionally returns the list of external calls it
performed, so that call-count properties of the spec can be stated.
JavaScript truthiness of optional strings, `parseFloat`, and
`String.prototype.trim` are modelled explicitly where the source relies on
them.
-/

namespace YTWeb

/-- Truthiness of a JS value that is either a string or absent: truthy iff
present and nonempty (the source tests `process.env` keys, `audio.url`,
`audio.sizeText` this way). -/
def strTruthy : Option String → Bool
  | none => false
  | some s => !(s == "")

/-- Model of JS `String.prototype.trim`: drop whitespace from both ends.
Used for `seg.text.trim()` in the Whisper segment conversion. -/
def jsTrim (s : String) : String :=
  String.mk (((s.data.dropWhile Char.isWhitespace).reverse.dropWhile Char.isWhitespace).reverse)

/-- Numeric value of a list of decimal digit characters. -/
def digitsVal (ds : List Char) : Nat :=
  ds.foldl (fun acc c => 10 * acc + (c.toNat - 48)) 0

/-- Model of JS `parseFloat` restricted to the forms that size texts use:
optional leading whitespace, optional sign, digits with an optional decimal
fraction. Returns `none` for `NaN` (no parsable number at the front). -/
def jsParseFloat (s : String) : Option ℚ :=
  let cs := s.data.dropWhile Char.isWhitespace
  let signed : ℚ × List Char :=
    match cs with
    | '-' :: rest => (-1, rest)
    | '+' :: rest => (1, rest)
    | _ => (1, cs)
  let intPart := signed.2.takeWhile Char.isDigit
  let rest := signed.2.dropWhile Char.isDigit
  let fracPart : List Char :=
    match rest with
    | '.' :: r => r.takeWhile Char.isDigit
    | _ => []
  if intPart.isEmpty && fracPart.isEmpty then none
  else some (signed.1 * ((digitsVal intPart : ℚ) + (digitsVal fracPart : ℚ) / ((10 : ℚ) ^ fracPart.length)))

/-- Character class of the video-identifier regex `[a-zA-Z0-9_-]`. -/
def isIdChar (c : Char) : Bool :=
  (('a' ≤ c && c ≤ 'z') || ('A' ≤ c && c ≤ 'Z') || ('0' ≤ c && c ≤ '9') || c == '_' || c == '-')

/-- The validation regex test `/^[a-zA-Z0-9_-]{11}$/.test(videoId)`. -/
def isValidVideoId (s : String) : Bool :=
  s.data.length == 11 && s.data.all isIdChar

/-- Canonical transcript segment `{ text, offset, duration }`. -/
structure TranscriptSegment where
  text : String
  offset : ℚ
  duration : ℚ
deriving Repr, DecidableEq

/-- Video metadata assembled by `getVideoInfo`. -/
structure VideoInfo where
  videoId : String
  title : String
  channelName : String
  thumbnail : String
deriving Repr, DecidableEq

/-- One Whisper segment `{ text, start, end }` (`end` is a Lean keyword, the
field is named `endTime` here). -/
structure WhisperSegment where
  text : String
  start : ℚ
  endTime : ℚ
deriving Repr, DecidableEq

/-- Whisper `verbose_json` response: `segments` may be absent, `text` is the
whole-text output (`""` models a falsy/absent text). -/
structure WhisperResp where
  segments : Option (List WhisperSegment)
  text : String
deriving Repr, DecidableEq

/-- Segment conversion of `transcribeWithWhisper`: map each engine segment to
`{ text: trimmed, offset: start, duration: end - start }`; if there are no
segments but the whole text is truthy, synthesize one segment. -/
def whisperToSegments (rawSegments : List WhisperSegment) (wholeText : String) : List TranscriptSegment :=
  let segments := rawSegments.map (fun seg => ⟨jsTrim seg.text, seg.start, seg.endTime - seg.start⟩)
  if segments.length = 0 ∧ wholeText ≠ "" then [⟨wholeText, 0, 0⟩] else segments

/-- Response body of the `oembed` metadata endpoint. -/
structure OembedData where
  title : String
  author_name : String
deriving Repr, DecidableEq

/-- Value of the `videoId` field of the parsed request body (a JS value:
string, number, boolean, null, or the field being absent). -/
inductive ReqVal where
  | vstr (s : String)
  | vnum (q : ℚ)
  | vbool (b : Bool)
  | vnull
  | vundefined
deriving Repr, DecidableEq

namespace Route

/-- One audio entry of the resolver's `data.audios.items` list. -/
structure AudioItem where
  url : Option String
  sizeText : Option String
deriving Repr, DecidableEq

/-- One video entry of the resolver's `data.videos.items` list. -/
structure VideoItem where
  url : Option String
  hasAudio : Bool
deriving Repr, DecidableEq

/-- Body of the RapidAPI `v2/video/details` response; `none` lists model an
absent `audios?.items` / `videos?.items` chain (defaulted with `|| []`). -/
structure VideoDetails where
  audios : Option (List AudioItem)
  videos : Option (List VideoItem)
deriving Repr, DecidableEq

/-- External calls the route can make, in the order they are issued. -/
inductive NetCall where
  | oembedFetch (videoId : String)
  | captionFetch (videoId : String) (lang : Option String)
  | detailsFetch (videoId : String)
  | audioFetch (url : String)
  | whisperCall
deriving Repr, DecidableEq

/-- Environment of oracles for the route's external collaborators. `none`
models a failed fetch (non-ok response or a thrown error). -/
structure Env where
  openaiConfigured : Bool
  rapidApiKey : Option String
  oembed : String → Option OembedData
  fetchTranscript : String → Option String → Option (List TranscriptSegment)
  videoDetails : String → Option VideoDetails
  audioDownload : String → Option Nat
  whisper : Except String WhisperResp

/-- The caption fallback `tryGetSubtitles`: try the `ko` track, then the
default track, returning `null` when both attempts throw. The second
component lists the caption fetches that were attempted. -/
def tryGetSubtitles (env : Env) (videoId : String) :
    Option (List TranscriptSegment) × List NetCall :=
  match env.fetchTranscript videoId (some "ko") with
  | some transcript =>
      (some (transcript.map (fun t => ⟨t.text, t.offset, t.duration⟩)),
       [NetCall.captionFetch videoId (some "ko")])
  | none =>
      match env.fetchTranscript videoId none with
      | some transcript =>
          (some (transcript.map (fun t => ⟨t.text, t.offset, t.duration⟩)),
           [NetCall.captionFetch videoId (some "ko"), NetCall.captionFetch videoId none])
      | none =>
          (none,
           [NetCall.captionFetch videoId (some "ko"), NetCall.captionFetch videoId none])

/-- One iteration of the smallest-audio selection loop:
`if (audio.url && audio.sizeText) { const size = parseFloat(audio.sizeText) || Infinity;
if (size < minSize) { minSize = size; audioUrl = audio.url } }`.
The state is `(audioUrl, minSize)` with `none` as `Infinity` for the size. -/
def audioStep (st : Option String × Option ℚ) (audio : AudioItem) :
    Option String × Option ℚ :=
  match audio.url, audio.sizeText with
  | some u, some sz =>
      if u ≠ "" ∧ sz ≠ "" then
        let size : Option ℚ :=
          match jsParseFloat sz with
          | none => none
          | some q => if q = 0 then none else some q
        match size, st.2 with
        | some q, some m => if q < m then (some u, some q) else st
        | some q, none => (some u, some q)
        | none, _ => st
      else st
  | _, _ => st

/-- The smallest-audio selection loop over the whole `audios` list, started
from `audioUrl = null`, `minSize = Infinity`. -/
def audioSel (audios : List AudioItem) : Option String × Option ℚ :=
  audios.foldl audioStep (none, none)

/-- The video fallback loop: first entry with a truthy `url` and `hasAudio`
(the source loop breaks on the first hit). -/
def selectVideo : List VideoItem → Option String
  | [] => none
  | video :: rest =>
      match video.url with
      | some u => if u ≠ "" ∧ video.hasAudio then some u else selectVideo rest
      | none => selectVideo rest

/-- The `getAudioUrl` resolver of the RapidAPI variant. Returns the chosen
audio URL or the thrown error message, together with the external calls made.
The `if (!audioUrl)` falsiness tests of the source are modelled by `Option`
matches: every URL the loops store is a nonempty string by their guards. -/
def getAudioUrl (env : Env) (videoId : String) : Except String String × List NetCall :=
  if strTruthy env.rapidApiKey = false then
    (Except.error "RapidAPI 키가 설정되지 않았습니다", [])
  else
    match env.videoDetails videoId with
    | none => (Except.error "영상 정보를 가져올 수 없습니다", [NetCall.detailsFetch videoId])
    | some data =>
        let fromAudios := (audioSel (data.audios.getD [])).1
        let audioUrl :=
          match fromAudios with
          | some u => some u
          | none => selectVideo (data.videos.getD [])
        match audioUrl with
        | some u => (Except.ok u, [NetCall.detailsFetch videoId])
        | none => (Except.error "오디오를 찾을 수 없습니다", [NetCall.detailsFetch videoId])

/-- The `transcribeWithWhisper` of the RapidAPI variant: resolve an audio URL,
download it, enforce the 25 MB ceiling, call Whisper, convert segments. -/
def transcribeWithWhisper (env : Env) (videoId : String) :
    Except String (List TranscriptSegment) × List NetCall :=
  if env.openaiConfigured = false then
    (Except.error "OpenAI API 키가 설정되지 않았습니다", [])
  else
    match getAudioUrl env videoId with
    | (Except.error e, calls) => (Except.error e, calls)
    | (Except.ok audioUrl, calls) =>
        match env.audioDownload audioUrl with
        | none =>
            (Except.error "오디오 다운로드에 실패했습니다", calls ++ [NetCall.audioFetch audioUrl])
        | some byteLength =>
            if 25 * 1024 * 1024 < byteLength then
              (Except.error "영상이 너무 깁니다. 10분 이하의 짧은 영상으로 시도해주세요.",
               calls ++ [NetCall.audioFetch audioUrl])
            else
              match env.whisper with
              | Except.error e =>
                  (Except.error e, calls ++ [NetCall.audioFetch audioUrl, NetCall.whisperCall])
              | Except.ok transcription =>
                  (Except.ok (whisperToSegments (transcription.segments.getD []) transcription.text),
                   calls ++ [NetCall.audioFetch audioUrl, NetCall.whisperCall])

/-- Response of the route: the success JSON body or `{ error }` with status. -/
inductive Response where
  | success (videoInfo : VideoInfo) (transcript : List TranscriptSegment)
      (fullText : String) (usedWhisper : Bool)
  | failure (error : String) (status : Nat)
deriving Repr, DecidableEq

/-- HTTP status of a response (`NextResponse.json` defaults to 200). -/
def Response.status : Response → Nat
  | Response.success _ _ _ _ => 200
  | Response.failure _ s => s

/-- The `POST` orchestrator of the RapidAPI variant, on an already-parsed
request body. The first guard is `if (!videoId || typeof videoId !== 'string')`:
it rejects every non-string and the empty string. -/
def POST (env : Env) (videoId : ReqVal) : Response × List NetCall :=
  match videoId with
  | ReqVal.vstr s =>
      if s = "" then (Response.failure "유효한 비디오 ID가 필요합니다" 400, [])
      else if isValidVideoId s = false then
        (Response.failure "올바른 YouTube 비디오 ID 형식이 아닙니다" 400, [])
      else
        match env.oembed s with
        | none =>
            (Response.failure "영상을 찾을 수 없습니다. URL을 확인해주세요." 404,
             [NetCall.oembedFetch s])
        | some d =>
            let videoInfo : VideoInfo :=
              ⟨s, d.title, d.author_name, "https://img.youtube.com/vi/" ++ s ++ "/maxresdefault.jpg"⟩
            match tryGetSubtitles env s with
            | (subtitles, subCalls) =>
                if 0 < (subtitles.getD []).length then
                  (Response.success videoInfo (subtitles.getD [])
                     (String.intercalate " " ((subtitles.getD []).map (fun t => t.text))) false,
                   NetCall.oembedFetch s :: subCalls)
                else
                  if env.openaiConfigured = false ∨ strTruthy env.rapidApiKey = false then
                    (Response.failure "이 영상에는 자막이 없습니다. \"파일 업로드\" 탭을 이용해주세요." 400,
                     NetCall.oembedFetch s :: subCalls)
                  else
                    match transcribeWithWhisper env s with
                    | (Except.ok transcript, wCalls) =>
                        (Response.success videoInfo transcript
                           (String.intercalate " " (transcript.map (fun t => t.text))) true,
                         NetCall.oembedFetch s :: (subCalls ++ wCalls))
                    | (Except.error e, wCalls) =>
                        (Response.failure e 500, NetCall.oembedFetch s :: (subCalls ++ wCalls))
  | _ => (Response.failure "유효한 비디오 ID가 필요합니다" 400, [])

end Route

namespace Cobalt

/-- Parsed body of a cobalt resolver response: a `status` string and the
stream `url`. -/
structure CobaltData where
  status : String
  url : String
deriving Repr, DecidableEq

/-- Environment for the cobalt-variant `transcribeWithWhisper`. The resolver
body oracle is indexed by the number of resolver calls already made, so the
embedding can express how many calls the function performs. -/
structure CobaltEnv where
  openaiConfigured : Bool
  cobaltOk : Bool
  cobaltData : Nat → CobaltData
  audioOk : String → Bool
  whisper : Except String WhisperResp

/-- The `transcribeWithWhisper` of the cobalt variant. The second component
is the number of resolver (cobalt) calls performed: the source issues a
single `fetch` to the resolver and, when the returned `status` is neither
`stream` nor `redirect`, throws at once — there is no polling loop. -/
def transcribeWithWhisper (env : CobaltEnv) (videoId : String) :
    Except String (List TranscriptSegment) × Nat :=
  if env.openaiConfigured = false then
    (Except.error "OpenAI API 키가 설정되지 않았습니다", 0)
  else if env.cobaltOk = false then
    (Except.error "오디오 추출에 실패했습니다. 잠시 후 다시 시도해주세요.", 1)
  else
    let cobaltData := env.cobaltData 0
    if cobaltData.status ≠ "stream" ∧ cobaltData.status ≠ "redirect" then
      (Except.error "오디오 URL을 가져올 수 없습니다", 1)
    else if env.audioOk cobaltData.url = false then
      (Except.error "오디오 다운로드에 실패했습니다", 1)
    else
      match env.whisper with
      | Except.error e => (Except.error e, 1)
      | Except.ok transcription =>
          (Except.ok (whisperToSegments (transcription.segments.getD []) transcription.text), 1)

end Cobalt

namespace History

/-- One row of the `crawl_history` table as selected by the endpoint. -/
structure HistoryRecord where
  id : String
  video_id : String
  title : String
  thumbnail : String
  created_at : ℚ
deriving Repr, DecidableEq

/-- Reverse-chronological comparison on history rows. -/
def recLE (a b : HistoryRecord) : Prop := b.created_at ≤ a.created_at

instance : DecidableRel recLE :=
  fun a b => inferInstanceAs (Decidable (b.created_at ≤ a.created_at))

instance : IsTotal HistoryRecord recLE :=
  ⟨fun a b => le_total b.created_at a.created_at⟩

instance : IsTrans HistoryRecord recLE :=
  ⟨fun _ _ _ h1 h2 => le_trans h2 h1⟩

/-- Modelled from the spec: the history sink (an external store, not part of
`src/`) executes the query the endpoint builds —
`.order('created_at', descending).limit(20)` — returning the most recent 20
records in reverse chronological order. -/
def runHistoryQuery (table : List HistoryRecord) : List HistoryRecord :=
  (List.insertionSort recLE table).take 20

/-- Outcome of the store query as seen by the endpoint: rows (possibly a null
`data`) or an error/exception. -/
inductive StoreResult where
  | rows (data : Option (List HistoryRecord))
  | failure
deriving DecidableEq

/-- Response of the history endpoint (`NextResponse.json` defaults to 200). -/
structure HistoryResponse where
  status : Nat
  history : List HistoryRecord
deriving Repr, DecidableEq

/-- The `GET` handler of `src/app/api/history/route.ts`: empty history when
the store credentials are missing, empty history when the query errors or
throws, `data || []` otherwise. -/
def GET (supabaseUrl supabaseKey : Option String) (store : StoreResult) : HistoryResponse :=
  if strTruthy supabaseUrl = false ∨ strTruthy supabaseKey = false then ⟨200, []⟩
  else
    match store with
    | StoreResult.failure => ⟨200, []⟩
    | StoreResult.rows data => ⟨200, data.getD []⟩

end History

/-! Concrete environments used to instantiate the theorems below. -/

/-- Environment with nothing configured and every external fetch failing. -/
def envNone : Route.Env :=
  ⟨false, none, fun _ => none, fun _ _ => none, fun _ => none, fun _ => none,
   Except.error "engine unavailable"⟩

/-- Environment where metadata succeeds and the `ko` caption track exists. -/
def envCap : Route.Env :=
  ⟨false, none, fun _ => some ⟨"Title", "Channel"⟩,
   fun _ lang => if lang = some "ko" then some [⟨"hello", 0, 2⟩, ⟨"world", 2, 3⟩] else none,
   fun _ => none, fun _ => none, Except.error "engine unavailable"⟩

/-- Environment where metadata succeeds, the `ko` track is missing and the
default-language track exists. -/
def envDefCap : Route.Env :=
  ⟨false, none, fun _ => some ⟨"Title", "Channel"⟩,
   fun _ lang => if lang = none then some [⟨"hola", 0, 1⟩] else none,
   fun _ => none, fun _ => none, Except.error "engine unavailable"⟩

/-- Environment where metadata succeeds and no caption track exists at all. -/
def envNoCap : Route.Env :=
  ⟨false, none, fun _ => some ⟨"Title", "Channel"⟩, fun _ _ => none, fun _ => none,
   fun _ => none, Except.error "engine unavailable"⟩

/-- Fully configured environment whose resolver yields a video-with-audio
stream and whose audio download is one byte over the 25 MB ceiling. -/
def envBig : Route.Env :=
  ⟨true, some "rapid-key", fun _ => some ⟨"Title", "Channel"⟩, fun _ _ => none,
   fun _ => some ⟨some [], some [⟨some "v.mp4", true⟩]⟩,
   fun _ => some (25 * 1024 * 1024 + 1), Except.ok ⟨some [], "hi"⟩⟩

/-- A valid identifier is nonempty (it has eleven characters). -/
lemma valid_videoId_ne_empty {s : String} (h : isValidVideoId s = true) : s ≠ "" := by
  intro he
  subst he
  exact absurd h (by decide)

/-- A successful `ko` caption fetch short-circuits `tryGetSubtitles`. -/
lemma tryGetSubtitles_ko (env : Route.Env) (videoId : String)
    (ts : List TranscriptSegment)
    (hko : env.fetchTranscript videoId (some "ko") = some ts) :
    Route.tryGetSubtitles env videoId =
      (some (ts.map (fun t => ⟨t.text, t.offset, t.duration⟩)),
       [Route.NetCall.captionFetch videoId (some "ko")]) := by
  simp [Route.tryGetSubtitles, hko]

/-- A failed `ko` fetch falls back to the default track. -/
lemma tryGetSubtitles_fallback (env : Route.Env) (videoId : String)
    (ts : List TranscriptSegment)
    (hko : env.fetchTranscript videoId (some "ko") = none)
    (hdef : env.fetchTranscript videoId none = some ts) :
    Route.tryGetSubtitles env videoId =
      (some (ts.map (fun t => ⟨t.text, t.offset, t.duration⟩)),
       [Route.NetCall.captionFetch videoId (some "ko"),
        Route.NetCall.captionFetch videoId none]) := by
  simp [Route.tryGetSubtitles, hko, hdef]

/-- When both caption attempts fail, `tryGetSubtitles` returns `null`. -/
lemma tryGetSubtitles_none (env : Route.Env) (videoId : String)
    (hko : env.fetchTranscript videoId (some "ko") = none)
    (hdef : env.fetchTranscript videoId none = none) :
    Route.tryGetSubtitles env videoId =
      (none,
       [Route.NetCall.captionFetch videoId (some "ko"),
        Route.NetCall.captionFetch videoId none]) := by
  simp [Route.tryGetSubtitles, hko, hdef]

/-- C2: a request whose `videoId` is not an 11-character string over
`[A-Za-z0-9_-]` is rejected with status 400 before any external call: the
trace of network calls is empty. -/
theorem POST_invalid_id_rejected_without_network (env : Route.Env) (v : ReqVal)
    (h : ∀ s, v = ReqVal.vstr s → isValidVideoId s = false) :
    (Route.POST env v).1.status = 400 ∧ (Route.POST env v).2 = [] := by
  cases v with
  | vstr s =>
      have hs := h s rfl
      by_cases he : s = ""
      · subst he
        simp [Route.POST, Route.Response.status]
      · simp [Route.POST, he, hs, Route.Response.status]
  | vnum q => simp [Route.POST, Route.Response.status]
  | vbool b => simp [Route.POST, Route.Response.status]
  | vnull => simp [Route.POST, Route.Response.status]
  | vundefined => simp [Route.POST, Route.Response.status]

/-- Witness for C2 at the concrete invalid identifier `"not a valid id!"`. -/
theorem POST_invalid_id_rejected_without_network_witness :
    (Route.POST envNone (ReqVal.vstr "not a valid id!")).1.status = 400 ∧
    (Route.POST envNone (ReqVal.vstr "not a valid id!")).2 = [] :=
  POST_invalid_id_rejected_without_network envNone (ReqVal.vstr "not a valid id!")
    (by intro s hs; injection hs with h; subst h; decide)

/-- C3: whenever the downloaded audio payload is strictly larger than
25 MB (`25 * 1024 * 1024` bytes), `transcribeWithWhisper` fails with the
too-large message and the speech engine is never called. -/
theorem transcribe_rejects_oversized_audio (env : Route.Env) (videoId url : String) (b : Nat)
    (hopenai : env.openaiConfigured = true)
    (hres : Route.getAudioUrl env videoId = (Except.ok url, [Route.NetCall.detailsFetch videoId]))
    (hdl : env.audioDownload url = some b)
    (hb : 25 * 1024 * 1024 < b) :
    (Route.transcribeWithWhisper env videoId).1 =
      Except.error "영상이 너무 깁니다. 10분 이하의 짧은 영상으로 시도해주세요." ∧
    Route.NetCall.whisperCall ∉ (Route.transcribeWithWhisper env videoId).2 := by
  unfold Route.transcribeWithWhisper
  rw [hopenai, hres]
  simp [hdl, hb]

/-- Witness for C3: a payload of exactly 25 MB + 1 byte is rejected without
reaching the engine. -/
theorem transcribe_rejects_oversized_audio_witness :
    (Route.transcribeWithWhisper envBig "dQw4w9WgXcQ").1 =
      Except.error "영상이 너무 깁니다. 10분 이하의 짧은 영상으로 시도해주세요." ∧
    Route.NetCall.whisperCall ∉ (Route.transcribeWithWhisper envBig "dQw4w9WgXcQ").2 :=
  transcribe_rejects_oversized_audio envBig "dQw4w9WgXcQ" "v.mp4" (25 * 1024 * 1024 + 1)
    rfl rfl rfl (by decide)

/-- C5: when the engine returns zero segments but a nonempty whole text, the
result is the single synthesized segment; otherwise every engine segment is
mapped, in order, to trimmed text with `offset = start` and
`duration = end - start`. -/
theorem whisperToSegments_spec (rawSegments : List WhisperSegment) (wholeText : String) :
    (rawSegments = [] → wholeText ≠ "" →
       whisperToSegments rawSegments wholeText = [⟨wholeText, 0, 0⟩]) ∧
    (¬ (rawSegments = [] ∧ wholeText ≠ "") →
       whisperToSegments rawSegments wholeText =
         rawSegments.map (fun seg => ⟨jsTrim seg.text, seg.start, seg.endTime - seg.start⟩)) := by
  constructor
  · intro h1 h2
    subst h1
    simp [whisperToSegments, h2]
  · intro h
    unfold whisperToSegments
    rw [if_neg]
    intro hc
    exact h ⟨by simpa using hc.1, hc.2⟩

/-- Witness for C5: a run with no segments and text `"hello"`, and a run with
one segment whose text is trimmed and whose duration is `end - start`. -/
theorem whisperToSegments_spec_witness :
    whisperToSegments [] "hello" = [⟨"hello", 0, 0⟩] ∧
    whisperToSegments [⟨" hi ", 1, 3⟩] "x" =
      [⟨jsTrim " hi ", 1, 3 - 1⟩] :=
  ⟨(whisperToSegments_spec [] "hello").1 rfl (by decide),
   (whisperToSegments_spec [⟨" hi ", 1, 3⟩] "x").2 (by simp)⟩

/-- C9: every success response of `POST` has `fullText` equal to the
transcript segments' texts joined by single spaces, in order. -/
theorem POST_fullText_join (env : Route.Env) (v : ReqVal)
    (vi : VideoInfo) (tr : List TranscriptSegment) (ft : String) (uw : Bool)
    (h : (Route.POST env v).1 = Route.Response.success vi tr ft uw) :
    ft = String.intercalate " " (tr.map (fun t => t.text)) := by
  cases v with
  | vstr s =>
      unfold Route.POST at h
      dsimp only at h
      by_cases he : s = ""
      · simp [he] at h
      · rw [if_neg he] at h
        by_cases hv : isValidVideoId s = false
        · simp [hv] at h
        · rw [if_neg hv] at h
          cases ho : env.oembed s with
          | none => rw [ho] at h; simp at h
          | some d =>
              rw [ho] at h
              rcases hsub : Route.tryGetSubtitles env s with ⟨subtitles, subCalls⟩
              rw [hsub] at h
              simp only at h
              split at h
              · injection h with h1 h2 h3 h4
                subst h2; subst h3; rfl
              · split at h
                · simp at h
                · rcases hw : Route.transcribeWithWhisper env s with ⟨r, wCalls⟩
                  rw [hw] at h
                  cases r with
                  | ok transcript =>
                      simp only at h
                      injection h with h1 h2 h3 h4
                      subst h2; subst h3; rfl
                  | error e => simp at h
  | vnum q => simp [Route.POST] at h
  | vbool b => simp [Route.POST] at h
  | vnull => simp [Route.POST] at h
  | vundefined => simp [Route.POST] at h

/-- Witness for C9: the concrete captions environment yields a success
response whose `fullText` is the space-joined segment texts. -/
theorem POST_fullText_join_witness :
    ("hello world" : String) =
      String.intercalate " "
        (([⟨"hello", 0, 2⟩, ⟨"world", 2, 3⟩] : List TranscriptSegment).map (fun t => t.text)) :=
  POST_fullText_join envCap (ReqVal.vstr "dQw4w9WgXcQ")
    ⟨"dQw4w9WgXcQ", "Title", "Channel", "https://img.youtube.com/vi/dQw4w9WgXcQ/maxresdefault.jpg"⟩
    [⟨"hello", 0, 2⟩, ⟨"world", 2, 3⟩] "hello world" false (by decide)

/-- C4: the caption retriever attempts `ko` first; on its failure it silently
falls back to the default track; a `ko` success never attempts the fallback
(the call trace holds the `ko` fetch only); and when both attempts fail the
result is `null` — a value, not an error. -/
theorem tryGetSubtitles_language_order (env : Route.Env) (videoId : String) :
    (∀ ts, env.fetchTranscript videoId (some "ko") = some ts →
       Route.tryGetSubtitles env videoId =
         (some (ts.map (fun t => ⟨t.text, t.offset, t.duration⟩)),
          [Route.NetCall.captionFetch videoId (some "ko")])) ∧
    (env.fetchTranscript videoId (some "ko") = none →
       ∀ ts, env.fetchTranscript videoId none = some ts →
         Route.tryGetSubtitles env videoId =
           (some (ts.map (fun t => ⟨t.text, t.offset, t.duration⟩)),
            [Route.NetCall.captionFetch videoId (some "ko"),
             Route.NetCall.captionFetch videoId none])) ∧
    (env.fetchTranscript videoId (some "ko") = none →
       env.fetchTranscript videoId none = none →
       Route.tryGetSubtitles env videoId =
         (none,
          [Route.NetCall.captionFetch videoId (some "ko"),
           Route.NetCall.captionFetch videoId none])) := by
  exact ⟨fun ts hko => tryGetSubtitles_ko env videoId ts hko,
    fun hko ts hdef => tryGetSubtitles_fallback env videoId ts hko hdef,
    fun hko hdef => tryGetSubtitles_none env videoId hko hdef⟩

/-- Witness for C4 at three concrete environments: `ko` present (one caption
call only), only the default track present (two calls), and no captions at
all (`null`, two calls). -/
theorem tryGetSubtitles_language_order_witness :
    Route.tryGetSubtitles envCap "dQw4w9WgXcQ" =
      (some [⟨"hello", 0, 2⟩, ⟨"world", 2, 3⟩],
       [Route.NetCall.captionFetch "dQw4w9WgXcQ" (some "ko")]) ∧
    Route.tryGetSubtitles envDefCap "dQw4w9WgXcQ" =
      (some [⟨"hola", 0, 1⟩],
       [Route.NetCall.captionFetch "dQw4w9WgXcQ" (some "ko"),
        Route.NetCall.captionFetch "dQw4w9WgXcQ" none]) ∧
    Route.tryGetSubtitles envNoCap "dQw4w9WgXcQ" =
      (none,
       [Route.NetCall.captionFetch "dQw4w9WgXcQ" (some "ko"),
        Route.NetCall.captionFetch "dQw4w9WgXcQ" none]) :=
  ⟨(tryGetSubtitles_language_order envCap "dQw4w9WgXcQ").1 _ rfl,
   (tryGetSubtitles_language_order envDefCap "dQw4w9WgXcQ").2.1 rfl _ rfl,
   (tryGetSubtitles_language_order envNoCap "dQw4w9WgXcQ").2.2 rfl rfl⟩

/-- C6: for a valid identifier whose metadata fetch succeeds and whose
preferred-language (`ko`) captions are present and nonempty, `POST` answers
with the success shape, `usedWhisper = false`, `videoInfo.videoId` equal to
the requested identifier, and a nonempty transcript. -/
theorem POST_captions_success (env : Route.Env) (videoId : String) (d : OembedData)
    (ts : List TranscriptSegment)
    (hid : isValidVideoId videoId = true)
    (hmeta : env.oembed videoId = some d)
    (hko : env.fetchTranscript videoId (some "ko") = some ts)
    (hne : ts ≠ []) :
    ∃ vi tr ft,
      (Route.POST env (ReqVal.vstr videoId)).1 = Route.Response.success vi tr ft false ∧
      vi.videoId = videoId ∧ tr ≠ [] := by
  have hsub := tryGetSubtitles_ko env videoId ts hko
  refine ⟨⟨videoId, d.title, d.author_name,
    "https://img.youtube.com/vi/" ++ videoId ++ "/maxresdefault.jpg"⟩,
    ts.map (fun t => ⟨t.text, t.offset, t.duration⟩),
    String.intercalate " "
      ((ts.map (fun t => (⟨t.text, t.offset, t.duration⟩ : TranscriptSegment))).map
        (fun t => t.text)),
    ?_, rfl, by simpa using hne⟩
  unfold Route.POST
  dsimp only
  rw [if_neg (valid_videoId_ne_empty hid), if_neg (by rw [hid]; simp), hmeta, hsub]
  dsimp only
  rw [if_pos (by simpa using List.length_pos.mpr hne)]
  rfl

/-- Witness for C6 at identifier `"dQw4w9WgXcQ"` with `ko` captions present. -/
theorem POST_captions_success_witness :
    ∃ vi tr ft,
      (Route.POST envCap (ReqVal.vstr "dQw4w9WgXcQ")).1 =
        Route.Response.success vi tr ft false ∧
      vi.videoId = "dQw4w9WgXcQ" ∧ tr ≠ [] :=
  POST_captions_success envCap "dQw4w9WgXcQ" ⟨"Title", "Channel"⟩
    [⟨"hello", 0, 2⟩, ⟨"world", 2, 3⟩] (by decide) rfl rfl (by decide)

/-- C8: for a valid identifier with no captions in any language and with the
resolver key or the engine key unconfigured, `POST` answers 400 with the
use-the-upload-tab message (a failure body, which carries no transcript
segments) — not a 500. -/
theorem POST_unconfigured_fallback (env : Route.Env) (videoId : String) (d : OembedData)
    (hid : isValidVideoId videoId = true)
    (hmeta : env.oembed videoId = some d)
    (hko : env.fetchTranscript videoId (some "ko") = none)
    (hdef : env.fetchTranscript videoId none = none)
    (hconf : env.openaiConfigured = false ∨ strTruthy env.rapidApiKey = false) :
    (Route.POST env (ReqVal.vstr videoId)).1 =
      Route.Response.failure "이 영상에는 자막이 없습니다. \"파일 업로드\" 탭을 이용해주세요." 400 := by
  have hsub := tryGetSubtitles_none env videoId hko hdef
  unfold Route.POST
  dsimp only
  rw [if_neg (valid_videoId_ne_empty hid), if_neg (by rw [hid]; simp), hmeta, hsub]
  dsimp only
  rw [if_neg (by simp), if_pos hconf]

/-- Witness for C8 at a concrete environment with metadata but no captions
and no configured resolver or engine. -/
theorem POST_unconfigured_fallback_witness :
    (Route.POST envNoCap (ReqVal.vstr "dQw4w9WgXcQ")).1 =
      Route.Response.failure "이 영상에는 자막이 없습니다. \"파일 업로드\" 탭을 이용해주세요." 400 :=
  POST_unconfigured_fallback envNoCap "dQw4w9WgXcQ" ⟨"Title", "Channel"⟩
    (by decide) rfl rfl rfl (Or.inl rfl)

/-- Resolver environment that reports `processing` on the first four calls
and a `stream` success afterwards, with everything else healthy. -/
def envPoll : Cobalt.CobaltEnv :=
  ⟨true, true,
   fun n => if n < 4 then ⟨"processing", ""⟩ else ⟨"stream", "http://audio"⟩,
   fun _ => true, Except.ok ⟨some [⟨"hi", 0, 1⟩], "hi"⟩⟩

/-- Counterexample to C1: with a resolver that reports `processing` exactly
four times and then `ok`, the code performs exactly one resolver call and
fails — it does not poll five times and succeed. -/
theorem cobalt_processing_counterexample :
    (Cobalt.transcribeWithWhisper envPoll "dQw4w9WgXcQ").2 = 1 ∧
    (Cobalt.transcribeWithWhisper envPoll "dQw4w9WgXcQ").1 =
      Except.error "오디오 URL을 가져올 수 없습니다" := by
  constructor <;> rfl

/-- C1 amended: when the resolver reports an in-progress/processing status —
any status other than `stream`/`redirect` — the caller does not poll: it
makes exactly one resolver call and fails immediately with the
cannot-get-audio-URL error; there is no retry budget and no delay. -/
theorem cobalt_no_polling (env : Cobalt.CobaltEnv) (videoId : String)
    (hopenai : env.openaiConfigured = true)
    (hok : env.cobaltOk = true)
    (hstatus : (env.cobaltData 0).status ≠ "stream" ∧ (env.cobaltData 0).status ≠ "redirect") :
    Cobalt.transcribeWithWhisper env videoId =
      (Except.error "오디오 URL을 가져올 수 없습니다", 1) := by
  unfold Cobalt.transcribeWithWhisper
  rw [hopenai, hok]
  simp [hstatus]

/-- Witness for the amended C1 at the concrete always-healthy environment
whose resolver first reports `processing`. -/
theorem cobalt_no_polling_witness :
    Cobalt.transcribeWithWhisper envPoll "dQw4w9WgXcQ" =
      (Except.error "오디오 URL을 가져올 수 없습니다", 1) :=
  cobalt_no_polling envPoll "dQw4w9WgXcQ" rfl rfl (by constructor <;> decide)

/-- Effective qualifying size of an audio entry: `some q` exactly when the
selection loop's guard `audio.url && audio.sizeText` passes and
`parseFloat(audio.sizeText) || Infinity` is the finite value `q` (a truthy
parse: well-defined and nonzero). -/
def qualSize (audio : Route.AudioItem) : Option ℚ :=
  match audio.url, audio.sizeText with
  | some u, some sz =>
      if u ≠ "" ∧ sz ≠ "" then
        match jsParseFloat sz with
        | none => none
        | some q => if q = 0 then none else some q
      else none
  | _, _ => none

/-- A qualifying entry has a present URL. -/
lemma qualSize_url {audio : Route.AudioItem} {q : ℚ} (h : qualSize audio = some q) :
    ∃ u, audio.url = some u := by
  rcases audio with ⟨u, sz⟩
  cases u with
  | none => cases sz <;> simp [qualSize] at h
  | some u => exact ⟨u, rfl⟩

/-- The selection-loop body, restated through `qualSize`. -/
lemma audioStep_eq (st : Option String × Option ℚ) (audio : Route.AudioItem) :
    Route.audioStep st audio =
      match qualSize audio, st.2 with
      | some q, some m => if q < m then (audio.url, some q) else st
      | some q, none => (audio.url, some q)
      | none, _ => st := by
  rcases st with ⟨su, sm⟩
  rcases audio with ⟨u, sz⟩
  cases u with
  | none => cases sz <;> cases sm <;> rfl
  | some u =>
      cases sz with
      | none => cases sm <;> rfl
      | some sz =>
          by_cases hg : u ≠ "" ∧ sz ≠ ""
          · simp only [Route.audioStep, qualSize, if_pos hg]
          · simp only [Route.audioStep, qualSize, if_neg hg]

/-- Invariant of the selection loop over a processed prefix: either nothing
qualified yet and the state is still `(null, Infinity)`, or the state holds
the URL of a processed qualifying entry of minimal qualifying size. -/
def SelInv (processed : List Route.AudioItem) (st : Option String × Option ℚ) : Prop :=
  (st = (none, none) ∧ ∀ a ∈ processed, qualSize a = none) ∨
  (∃ u m, st = (some u, some m) ∧
     (∃ a ∈ processed, a.url = some u ∧ qualSize a = some m) ∧
     ∀ a ∈ processed, ∀ q, qualSize a = some q → m ≤ q)

/-- One loop iteration preserves the selection invariant. -/
lemma selInv_step (pre : List Route.AudioItem) (st : Option String × Option ℚ)
    (a : Route.AudioItem) (h : SelInv pre st) :
    SelInv (pre ++ [a]) (Route.audioStep st a) := by
  rw [audioStep_eq]
  rcases h with ⟨hst, hall⟩ | ⟨u, m, hst, ⟨b, hb, hbu, hbm⟩, hmin⟩
  · subst hst
    cases hq : qualSize a with
    | none =>
        left
        refine ⟨rfl, ?_⟩
        intro x hx
        rcases List.mem_append.mp hx with hx | hx
        · exact hall x hx
        · rw [List.mem_singleton.mp hx]; exact hq
    | some q =>
        right
        obtain ⟨u, hu⟩ := qualSize_url hq
        dsimp only
        refine ⟨u, q, by rw [hu], ⟨a, by simp, hu, hq⟩, ?_⟩
        intro x hx p hp
        rcases List.mem_append.mp hx with hx | hx
        · exact absurd hp (by rw [hall x hx]; simp)
        · rw [List.mem_singleton.mp hx] at hp
          rw [hq] at hp
          exact le_of_eq (Option.some_injective ℚ hp)
  · subst hst
    cases hq : qualSize a with
    | none =>
        right
        refine ⟨u, m, rfl, ⟨b, List.mem_append_left _ hb, hbu, hbm⟩, ?_⟩
        intro x hx p hp
        rcases List.mem_append.mp hx with hx | hx
        · exact hmin x hx p hp
        · rw [List.mem_singleton.mp hx] at hp
          rw [hq] at hp
          exact absurd hp (by simp)
    | some q =>
        dsimp only
        by_cases hlt : q < m
        · right
          obtain ⟨u2, hu2⟩ := qualSize_url hq
          rw [if_pos hlt]
          refine ⟨u2, q, by rw [hu2], ⟨a, by simp, hu2, hq⟩, ?_⟩
          intro x hx p hp
          rcases List.mem_append.mp hx with hx | hx
          · exact le_trans (le_of_lt hlt) (hmin x hx p hp)
          · rw [List.mem_singleton.mp hx] at hp
            rw [hq] at hp
            exact le_of_eq (Option.some_injective ℚ hp)
        · right
          rw [if_neg hlt]
          refine ⟨u, m, rfl, ⟨b, List.mem_append_left _ hb, hbu, hbm⟩, ?_⟩
          intro x hx p hp
          rcases List.mem_append.mp hx with hx | hx
          · exact hmin x hx p hp
          · rw [List.mem_singleton.mp hx] at hp
            rw [hq] at hp
            rw [← Option.some_injective ℚ hp]
            exact le_of_not_lt hlt

/-- The loop maintains the invariant over any suffix. -/
lemma selInv_foldl (l : List Route.AudioItem) :
    ∀ (pre : List Route.AudioItem) (st : Option String × Option ℚ),
      SelInv pre st → SelInv (pre ++ l) (l.foldl Route.audioStep st) := by
  induction l with
  | nil => intro pre st h; simpa using h
  | cons a l ih =>
      intro pre st h
      have h2 := ih (pre ++ [a]) _ (selInv_step pre st a h)
      simpa [List.append_assoc] using h2

/-- The final selection state satisfies the invariant for the whole list. -/
lemma audioSel_spec (l : List Route.AudioItem) : SelInv l (Route.audioSel l) := by
  have h0 : SelInv [] ((none, none) : Option String × Option ℚ) := Or.inl ⟨rfl, by simp⟩
  simpa using selInv_foldl l [] _ h0

/-- C7 amended: when some audio entry qualifies — present nonempty URL and a
`sizeText` whose `parseFloat` is truthy (well-defined and nonzero) — the
locator returns the URL of a qualifying audio entry of minimal qualifying
size; the video list decides the result only when no audio entry qualifies,
and if it also yields nothing the locator fails. -/
theorem getAudioUrl_smallest_audio (env : Route.Env) (videoId : String)
    (data : Route.VideoDetails)
    (hkey : strTruthy env.rapidApiKey = true)
    (hdet : env.videoDetails videoId = some data) :
    ((∃ a ∈ data.audios.getD [], qualSize a ≠ none) →
       ∃ u m, (Route.getAudioUrl env videoId).1 = Except.ok u ∧
         (∃ a ∈ data.audios.getD [], a.url = some u ∧ qualSize a = some m) ∧
         (∀ a ∈ data.audios.getD [], ∀ q, qualSize a = some q → m ≤ q)) ∧
    ((∀ a ∈ data.audios.getD [], qualSize a = none) →
       (Route.getAudioUrl env videoId).1 =
         (match Route.selectVideo (data.videos.getD []) with
          | some u => Except.ok u
          | none => Except.error "오디오를 찾을 수 없습니다")) := by
  have hsel := audioSel_spec (data.audios.getD [])
  unfold Route.getAudioUrl
  rw [if_neg (by rw [hkey]; simp), hdet]
  dsimp only
  rcases hsel with ⟨hst, hall⟩ | ⟨u, m, hst, ⟨b, hb, hbu, hbm⟩, hmin⟩
  · rw [hst]
    constructor
    · intro ⟨a, ha, hq⟩
      exact absurd (hall a ha) hq
    · intro _
      dsimp only
      cases Route.selectVideo (data.videos.getD []) <;> rfl
  · rw [hst]
    constructor
    · intro _
      exact ⟨u, m, rfl, ⟨b, hb, hbu, hbm⟩, hmin⟩
    · intro hall
      exact absurd (hall b hb) (by rw [hbm]; simp)

/-- Resolver response whose only audio entry reports size `"0 MB"` while a
video entry with audio exists. -/
def detailsZero : Route.VideoDetails :=
  ⟨some [⟨some "a.m4a", some "0 MB"⟩], some [⟨some "v.mp4", true⟩]⟩

/-- Environment serving `detailsZero` with the resolver key configured. -/
def envZero : Route.Env :=
  ⟨true, some "rapid-key", fun _ => none, fun _ _ => none, fun _ => some detailsZero,
   fun _ => none, Except.error "engine unavailable"⟩

/-- The audio entry with reported size `"0 MB"` does not qualify: zero is
falsy, so its size is coerced to `Infinity`. -/
lemma qualSize_zeroMB : qualSize ⟨some "a.m4a", some "0 MB"⟩ = none := by
  have h1 : jsParseFloat "0 MB" =
      some ((1 : ℚ) * ((digitsVal ['0'] : ℚ) + (digitsVal [] : ℚ) / 10 ^ (0 : ℕ))) := rfl
  have h2 : (1 : ℚ) * ((digitsVal ['0'] : ℚ) + (digitsVal [] : ℚ) / 10 ^ (0 : ℕ)) = 0 := by
    rw [show digitsVal ['0'] = 0 from rfl, show digitsVal [] = 0 from rfl]
    norm_num
  simp only [qualSize]
  rw [if_pos ⟨by decide, by decide⟩, h1]
  dsimp only
  rw [if_pos h2]

/-- Counterexample to C7: the resolver response `detailsZero` has an audio
entry with a URL and a reported size (`"0 MB"`), yet the locator returns the
video entry's URL, not an audio URL. -/
theorem getAudioUrl_zero_size_counterexample :
    (Route.getAudioUrl envZero "dQw4w9WgXcQ").1 = Except.ok "v.mp4" ∧
    (∀ a ∈ detailsZero.audios.getD [], a.url ≠ some "v.mp4") ∧
    detailsZero.audios.getD [] = [⟨some "a.m4a", some "0 MB"⟩] := by
  refine ⟨?_, by decide, rfl⟩
  have hsel : Route.audioSel [(⟨some "a.m4a", some "0 MB"⟩ : Route.AudioItem)] =
      (none, none) := by
    unfold Route.audioSel
    rw [List.foldl_cons, List.foldl_nil, audioStep_eq, qualSize_zeroMB]
  have hdet : envZero.videoDetails "dQw4w9WgXcQ" = some detailsZero := rfl
  unfold Route.getAudioUrl
  rw [if_neg (by decide), hdet]
  dsimp only
  rw [show detailsZero.audios.getD [] = [(⟨some "a.m4a", some "0 MB"⟩ : Route.AudioItem)] from rfl,
      hsel]
  rfl

/-- Environment whose resolver lists one qualifying audio entry of size
`"3 MB"`. -/
def envThree : Route.Env :=
  ⟨true, some "rapid-key", fun _ => none, fun _ _ => none,
   fun _ => some ⟨some [⟨some "a.m4a", some "3 MB"⟩], some []⟩, fun _ => none,
   Except.error "engine unavailable"⟩

/-- The `"3 MB"` entry qualifies with the parsed size. -/
lemma qualSize_threeMB : qualSize ⟨some "a.m4a", some "3 MB"⟩ =
    some ((1 : ℚ) * ((digitsVal ['3'] : ℚ) + (digitsVal [] : ℚ) / 10 ^ (0 : ℕ))) := by
  have h1 : jsParseFloat "3 MB" =
      some ((1 : ℚ) * ((digitsVal ['3'] : ℚ) + (digitsVal [] : ℚ) / 10 ^ (0 : ℕ))) := rfl
  have h2 : (1 : ℚ) * ((digitsVal ['3'] : ℚ) + (digitsVal [] : ℚ) / 10 ^ (0 : ℕ)) ≠ 0 := by
    rw [show digitsVal ['3'] = 3 from rfl, show digitsVal [] = 0 from rfl]
    norm_num
  simp only [qualSize]
  rw [if_pos ⟨by decide, by decide⟩, h1]
  dsimp only
  rw [if_neg h2]

/-- Witness for the amended C7: with a qualifying `"3 MB"` audio entry the
locator picks an audio URL of minimal size, and with no qualifying audio
entry it falls back to the video list. -/
theorem getAudioUrl_smallest_audio_witness :
    (∃ u m, (Route.getAudioUrl envThree "dQw4w9WgXcQ").1 = Except.ok u ∧
       (∃ a ∈ ((⟨some [⟨some "a.m4a", some "3 MB"⟩], some []⟩ : Route.VideoDetails).audios.getD []),
          a.url = some u ∧ qualSize a = some m) ∧
       (∀ a ∈ ((⟨some [⟨some "a.m4a", some "3 MB"⟩], some []⟩ : Route.VideoDetails).audios.getD []),
          ∀ q, qualSize a = some q → m ≤ q)) ∧
    (Route.getAudioUrl envBig "dQw4w9WgXcQ").1 =
      (match Route.selectVideo
          (((⟨some [], some [⟨some "v.mp4", true⟩]⟩ : Route.VideoDetails).videos.getD [])) with
       | some u => Except.ok u
       | none => Except.error "오디오를 찾을 수 없습니다") :=
  ⟨(getAudioUrl_smallest_audio envThree "dQw4w9WgXcQ"
      ⟨some [⟨some "a.m4a", some "3 MB"⟩], some []⟩ rfl rfl).1
      ⟨⟨some "a.m4a", some "3 MB"⟩, by simp, by rw [qualSize_threeMB]; simp⟩,
   (getAudioUrl_smallest_audio envBig "dQw4w9WgXcQ"
      ⟨some [], some [⟨some "v.mp4", true⟩]⟩ rfl rfl).2 (by simp)⟩

/-- The spec-modelled store query returns at most 20 rows. -/
lemma runHistoryQuery_length (table : List History.HistoryRecord) :
    (History.runHistoryQuery table).length ≤ 20 := by
  unfold History.runHistoryQuery
  rw [List.length_take]
  exact min_le_left _ _

/-- The spec-modelled store query returns rows in reverse chronological
order. -/
lemma runHistoryQuery_sorted (table : List History.HistoryRecord) :
    List.Sorted History.recLE (History.runHistoryQuery table) :=
  List.Pairwise.sublist (List.take_sublist 20 _)
    (List.sorted_insertionSort History.recLE table)

/-- Every returned row comes from the table. -/
lemma runHistoryQuery_mem (table : List History.HistoryRecord) :
    ∀ x ∈ History.runHistoryQuery table, x ∈ table := fun x hx =>
  (List.perm_insertionSort History.recLE table).mem_iff.mp
    ((List.take_sublist 20 _).subset hx)

/-- Every omitted row is no more recent than any returned row. -/
lemma runHistoryQuery_most_recent (table : List History.HistoryRecord) :
    ∀ y ∈ table, y ∉ History.runHistoryQuery table →
      ∀ x ∈ History.runHistoryQuery table, y.created_at ≤ x.created_at := by
  intro y hy hyn x hx
  have hsort := List.sorted_insertionSort History.recLE table
  have hsplit := List.take_append_drop 20 (List.insertionSort History.recLE table)
  rw [← hsplit] at hsort
  have hcross := (List.pairwise_append.mp hsort).2.2
  have hys : y ∈ List.insertionSort History.recLE table :=
    (List.perm_insertionSort History.recLE table).mem_iff.mpr hy
  rw [← hsplit] at hys
  rcases List.mem_append.mp hys with hys | hys
  · exact absurd hys hyn
  · exact hcross x hx y hys

/-- C10: the history endpoint never answers with an error status — every
invocation yields status 200 with a history list: empty when the store
credentials are not configured, empty when the store query fails or throws,
and otherwise (with the store behaving per its query) at most the 20 most
recent records in reverse chronological order. -/
theorem historyGET_spec (supabaseUrl supabaseKey : Option String)
    (store : History.StoreResult) :
    (History.GET supabaseUrl supabaseKey store).status = 200 ∧
    ((strTruthy supabaseUrl = false ∨ strTruthy supabaseKey = false) →
       (History.GET supabaseUrl supabaseKey store).history = []) ∧
    (store = History.StoreResult.failure →
       (History.GET supabaseUrl supabaseKey store).history = []) ∧
    (∀ table, strTruthy supabaseUrl = true → strTruthy supabaseKey = true →
       store = History.StoreResult.rows (some (History.runHistoryQuery table)) →
       (History.GET supabaseUrl supabaseKey store).history.length ≤ 20 ∧
       List.Sorted History.recLE (History.GET supabaseUrl supabaseKey store).history ∧
       (∀ x ∈ (History.GET supabaseUrl supabaseKey store).history, x ∈ table) ∧
       (∀ y ∈ table, y ∉ (History.GET supabaseUrl supabaseKey store).history →
          ∀ x ∈ (History.GET supabaseUrl supabaseKey store).history,
            y.created_at ≤ x.created_at)) := by
  refine ⟨?_, ?_, ?_, ?_⟩
  · unfold History.GET
    split
    · rfl
    · cases store <;> rfl
  · intro h
    unfold History.GET
    rw [if_pos h]
  · intro h
    subst h
    unfold History.GET
    split <;> rfl
  · intro table hu hk hs
    subst hs
    have hh : (History.GET supabaseUrl supabaseKey
        (History.StoreResult.rows (some (History.runHistoryQuery table)))).history =
        History.runHistoryQuery table := by
      unfold History.GET
      rw [if_neg (by simp [hu, hk])]
      rfl
    rw [hh]
    exact ⟨runHistoryQuery_length table, runHistoryQuery_sorted table,
      runHistoryQuery_mem table, runHistoryQuery_most_recent table⟩

/-- Concrete two-row history table for the witness. -/
def histTable : List History.HistoryRecord :=
  [⟨"1", "dQw4w9WgXcQ", "First", "thumb1", 1⟩, ⟨"2", "abcdefghijk", "Second", "thumb2", 2⟩]

/-- Witness for C10 at concrete credentials, a failing store, and a store
answering the modelled query over a concrete table. -/
theorem historyGET_spec_witness :
    (History.GET (some "url") (some "key")
        (History.StoreResult.rows (some (History.runHistoryQuery histTable)))).status = 200 ∧
    (History.GET none none History.StoreResult.failure).history = [] ∧
    (∀ x ∈ (History.GET (some "url") (some "key")
        (History.StoreResult.rows (some (History.runHistoryQuery histTable)))).history,
      x ∈ histTable) :=
  ⟨(historyGET_spec (some "url") (some "key")
      (History.StoreResult.rows (some (History.runHistoryQuery histTable)))).1,
   (historyGET_spec none none History.StoreResult.failure).2.1 (Or.inl rfl),
   ((historyGET_spec (some "url") (some "key")
      (History.StoreResult.rows (some (History.runHistoryQuery histTable)))).2.2.2
      histTable rfl rfl rfl).2.2.1⟩

end YTWeb
